import Mathlib

/-!
Verification of the access-rights resolution and toggle-mutation core
(`ResourceAccessRightsModel`, file `resource_access_rights_model.cpp`).

The grant store (`ResourceAccessMap`, a `QHash<QnUuid, AccessRights>`) is
embedded as an association list of (target id, bitmask) pairs; `QnUuid` is
embedded as `Nat` with `0` standing for the null uuid, and `AccessRights`
as a `Nat` bitmask, a single `AccessRight` being a bit index.
-/

/-- Embedding of `ResourceAccessMap = QHash<QnUuid, AccessRights>`:
an association list from target id to access-rights bitmask. -/
abbrev AccessMap := List (Nat × Nat)

/-- Embedding of `QHash::value(id)`: the first value stored under `id`, defaulting to `0`
(empty `AccessRights`) when the key is absent. -/
def mapValue : AccessMap → Nat → Nat
  | [], _ => 0
  | (k, v) :: rest, id => if k = id then v else mapValue rest id

/-- Embedding of `QHash::emplace(id, v)`: replace the first entry with key `id`,
or append a fresh entry when the key is absent. -/
def setKey : AccessMap → Nat → Nat → AccessMap
  | [], id, v => [(id, v)]
  | (k, w) :: rest, id, v =>
      if k = id then (id, v) :: rest else (k, w) :: setKey rest id v

/-- Embedding of `QHash::remove(id)`: drop every entry with key `id`. -/
def removeKey : AccessMap → Nat → AccessMap
  | [], _ => []
  | p :: rest, id =>
      if p.1 = id then removeKey rest id else p :: removeKey rest id

/-- Key membership in the map. -/
def hasKey (m : AccessMap) (id : Nat) : Bool :=
  m.any (fun p => p.1 = id)

/-- Embedding of `QFlags::testFlag` for a single-bit access right given by its bit index. -/
def testFlag (mask : Nat) (right : Nat) : Bool :=
  mask.testBit right

/-- Executable embedding of the bitmask operation `a & ~mask` (Qt flag
clearing); written with accelerated operations so concrete toggles
evaluate inside the kernel. -/
def clearMask (a mask : Nat) : Nat := a ^^^ (a &&& mask)

/-- Embedding of the anonymous-namespace helper `modifyAccessRights`:
OR the mask in (`value = true`) or AND it out (`value = false`); a result
equal to the current value leaves the map untouched, a zero result removes
the entry, a nonzero result is stored. -/
def modifyAccessRights (accessMap : AccessMap) (resourceOrGroupId : Nat)
    (accessRightsMask : Nat) (value : Bool) : AccessMap :=
  let accessRights := mapValue accessMap resourceOrGroupId
  let newAccessRights :=
    if value then accessRights ||| accessRightsMask
    else clearMask accessRights accessRightsMask
  if newAccessRights = accessRights then accessMap
  else if newAccessRights ≠ 0 then setKey accessMap resourceOrGroupId newAccessRights
  else removeKey accessMap resourceOrGroupId

/-- Embedding of `ResourceAccessInfo::ProvidedVia`. -/
inductive ProvidedVia where
  | none
  | own
  | ownResourceGroup
  | layout
  | videowall
  | parentUserGroup
  | unknown
  deriving DecidableEq, Repr

/-- Kind of an indirect provider resource (layouts and videowalls confer
access to their member resources; `plain` stands for any other resource,
in particular the target resource itself appearing as its own provider). -/
inductive ProviderKind where
  | layoutKind
  | videowallKind
  | plainKind
  deriving DecidableEq, Repr

/-- An indirect provider resource: its id and its dynamic kind. -/
structure Provider where
  id : Nat
  kind : ProviderKind
  deriving DecidableEq, Repr

/-- Embedding of `ResourceAccessInfo` (declared in the model's header):
provenance channel, sorted provider lists, and child counts for
resource-group rows. -/
structure ResourceAccessInfo where
  providedVia : ProvidedVia := ProvidedVia.none
  providerUserGroups : List Nat := []
  indirectProviders : List Provider := []
  checkedChildCount : Nat := 0
  totalChildCount : Nat := 0
  deriving DecidableEq, Repr

instance : Inhabited ResourceAccessInfo := ⟨{}⟩

/-- Embedding of `ResourceAccessInfo::operator==`: compares `providedVia`,
`providerUserGroups`, `indirectProviders` and `checkedChildCount`
(and nothing else). -/
def infoEq (a b : ResourceAccessInfo) : Bool :=
  decide (a.providedVia = b.providedVia)
    && decide (a.providerUserGroups = b.providerUserGroups)
    && decide (a.indirectProviders = b.indirectProviders)
    && decide (a.checkedChildCount = b.checkedChildCount)

/-- Embedding of `ResourceAccessRightsModel::providerType`: maps a provider
resource to its provenance channel (`unknown` for any other kind). -/
def providerType (p : Provider) : ProvidedVia :=
  match p.kind with
  | ProviderKind.layoutKind => ProvidedVia.layout
  | ProviderKind.videowallKind => ProvidedVia.videowall
  | ProviderKind.plainKind => ProvidedVia.unknown

/-- Embedding of the local `priorityKey` lambda in
`ResourceAccessRightsModel::Private::updateInfo`. -/
def priorityKey (providedVia : ProvidedVia) : Nat :=
  match providedVia with
  | ProvidedVia.videowall => 1
  | ProvidedVia.layout => 2
  | _ => 0

/-- Sorted insertion of a provider (stand-in for the `std::upper_bound`
insertion keeping `indirectProviders` sorted). -/
def insertProvider (p : Provider) : List Provider → List Provider
  | [] => [p]
  | q :: rest =>
      if p.id ≤ q.id then p :: q :: rest else q :: insertProvider p rest

/-- Embedding of the provider scan loop of
`ResourceAccessRightsModel::Private::updateInfo` (the branch where access
is granted only through indirect providers): raise `providedVia` to the
highest-priority provider kind and accumulate the sorted provider list. -/
def scanProviders : List Provider → ResourceAccessInfo → ResourceAccessInfo
  | [], acc => acc
  | p :: rest, acc =>
      let providedVia := providerType p
      let acc :=
        if priorityKey providedVia > priorityKey acc.providedVia then
          { acc with providedVia := providedVia }
        else acc
      scanProviders rest
        { acc with indirectProviders := insertProvider p acc.indirectProviders }

/-- A container resource (layout or videowall) with its member resources. -/
structure Container where
  id : Nat
  kind : ProviderKind
  members : List Nat
  deriving DecidableEq, Repr

/-- Read-only snapshot of the surrounding catalogue for one resolve/toggle
call: subject hierarchy, container index, special-resource-group contents,
each resource's enclosing special group, and the own grant maps of every
subject other than the one being edited. -/
structure World where
  /-- All subject ids (used to enumerate granting ancestors). -/
  subjects : List Nat
  /-- Adjacency `SubjectHierarchy::directParents`. -/
  parentsOf : Nat → List Nat
  /-- Traversal bound standing in for the visited-set cycle defense. -/
  fuel : Nat
  /-- Container index: layouts/videowalls with their member resources. -/
  containers : List Container
  /-- Contents `getGroupContents`: member resource ids of a special resource group. -/
  groupContents : Nat → List Nat
  /-- Modelled from the spec:
  `AccessSubjectEditingContext::specialResourceGroupFor` is not under the
  sources; per the spec a resource belongs to at most one special
  collection — `0` means none. -/
  outerGroupFor : Nat → Nat
  /-- Own grant maps of the other subjects (ancestor groups). -/
  grants : Nat → AccessMap

/-- A protected target: an individual resource or a special resource group
(in the model class, a set resource versus a node type with `groupId()`). -/
inductive Target where
  | resource (id : Nat)
  | group (id : Nat)
  deriving DecidableEq, Repr

/-- The toggled/resolved id: `d->resource ? d->resource->getId() : groupId()`. -/
def targetId : Target → Nat
  | Target.resource id => id
  | Target.group id => id

/-- Modelled from the spec: `SubjectHierarchy::isRecursiveMember` is not
under the sources; per spec §4.1 it follows parent edges upward from the
subject, any depth, with a traversal bound defending against cycles. -/
def reachesUp (w : World) : Nat → Nat → List Nat → Bool
  | 0, _, _ => false
  | Nat.succ fuel, x, targets =>
      (w.parentsOf x).any (fun p => targets.contains p || reachesUp w fuel p targets)

/-- Predicate `isRecursiveMember(subject, ancestorCandidateSet)`: some candidate is a
(strict) ancestor of the subject. -/
def isRecursiveMember (w : World) (subject : Nat) (ancestors : List Nat) : Bool :=
  reachesUp w w.fuel subject ancestors

/-- Modelled from the spec: `AccessSubjectEditingContext::hasOwnAccessRight`
is not under the sources; per spec §4.2 step 1 it tests the subject's own
grant map at the given id. -/
def hasOwnAccessRight (accessMap : AccessMap) (id : Nat) (right : Nat) : Bool :=
  testFlag (mapValue accessMap id) right

/-- Modelled from the spec: the provider set one subject contributes to
`accessDetails` — the resource itself when the subject holds an own grant
on the resource or on its enclosing special collection (spec §4.2 steps
3–4), plus every container holding the resource as a member and granted
the right to the subject (spec §4.2 step 5). -/
def providersFor (w : World) (accessMap : AccessMap) (r right : Nat) : List Provider :=
  (if testFlag (mapValue accessMap r) right
      ∨ (w.outerGroupFor r ≠ 0 ∧ testFlag (mapValue accessMap (w.outerGroupFor r)) right)
   then [⟨r, ProviderKind.plainKind⟩] else [])
  ++ ((w.containers.filter
        (fun c => c.members.contains r ∧ testFlag (mapValue accessMap c.id) right)).map
      (fun c => (⟨c.id, c.kind⟩ : Provider)))

/-- Modelled from the spec: `AccessSubjectEditingContext::accessDetails` is
not under the sources; it maps each subject that effectively grants the
right on the resource (the edited subject itself or one of its ancestor
subjects) to that subject's providers, keeping only nonempty entries. -/
def accessDetails (w : World) (accessMap : AccessMap) (u r right : Nat) :
    List (Nat × List Provider) :=
  ((u, providersFor w accessMap r right)
      :: (w.subjects.filter
            (fun s => s ≠ u ∧ isRecursiveMember w u [s])).map
          (fun s => (s, providersFor w (w.grants s) r right))).filter
    (fun e => e.2 ≠ [])

/-- Key membership in an `accessDetails` result (`QHash::contains`). -/
def detailsContains (details : List (Nat × List Provider)) (s : Nat) : Bool :=
  details.any (fun e => e.1 = s)

/-- Lookup (`QHash::value`) on an `accessDetails` result. -/
def detailsValue (details : List (Nat × List Provider)) (s : Nat) : List Provider :=
  match details.find? (fun e => e.1 = s) with
  | some e => e.2
  | _ => []

/-- The key set of an `accessDetails` result (`providerIds`). -/
def detailsKeys (details : List (Nat × List Provider)) : List Nat :=
  details.map (fun e => e.1)

/-- Embedding of `Private::countGroupResources`: total member count and the
count of members individually carrying the right in the own access map. -/
def countGroupResources (w : World) (accessMap : AccessMap) (groupId right : Nat) :
    Nat × Nat :=
  let contents := w.groupContents groupId
  (contents.countP (fun m => testFlag (mapValue accessMap m) right), contents.length)

/-- Embedding of the direct-parent filter of the `parentUserGroup` branch of
`Private::updateInfo`: keep the direct parents that are themselves providers
or recursive members of the provider set, then sort. -/
def parentProviderGroups (w : World) (u : Nat) (providerIds : List Nat) : List Nat :=
  List.insertionSort (fun a b => a ≤ b)
    ((w.parentsOf u).filter
      (fun key => providerIds.contains key ∨ isRecursiveMember w key providerIds))

/-- Embedding of the per-right body of
`ResourceAccessRightsModel::Private::updateInfo`: computes one
`ResourceAccessInfo` for the current subject, target and access right. -/
def updateInfoAt (w : World) (hasContext : Bool) (u : Nat) (accessMap : AccessMap)
    (target : Target) (right : Nat) : ResourceAccessInfo :=
  if hasContext ∧ u ≠ 0 ∧ targetId target ≠ 0 then
    match target with
    | Target.group groupId =>
        if hasOwnAccessRight accessMap groupId right then
          { providedVia := ProvidedVia.own }
        else
          let counts := countGroupResources w accessMap groupId right
          { checkedChildCount := counts.1, totalChildCount := counts.2 }
    | Target.resource r =>
        let details := accessDetails w accessMap u r right
        if detailsContains details u then
          let providers := detailsValue details u
          if providers.any (fun p => p.id = r) then
            let resourceGroupId := w.outerGroupFor r
            let accessViaResourceGroup := resourceGroupId ≠ 0
              ∧ testFlag (mapValue accessMap resourceGroupId) right
            { providedVia :=
                if accessViaResourceGroup then ProvidedVia.ownResourceGroup
                else ProvidedVia.own }
          else scanProviders providers {}
        else if details ≠ [] then
          { providedVia := ProvidedVia.parentUserGroup,
            providerUserGroups := parentProviderGroups w u (detailsKeys details) }
        else {}
  else {}

/-- The model state a `toggle` call reads: the catalogue snapshot, the
editing context presence, the edited subject, the access-right row list,
the current target, and the right-dependency table. -/
structure Env where
  world : World
  hasContext : Bool
  subject : Nat
  accessRightList : List Nat
  target : Target
  /-- Modelled from the spec:
  `AccessSubjectEditingContext::requiredAccessRights` is not under the
  sources; rights auto-granted alongside the toggled right. -/
  requiredMask : Nat → Nat
  /-- Modelled from the spec:
  `AccessSubjectEditingContext::dependentAccessRights` is not under the
  sources; rights auto-revoked alongside the toggled right. -/
  dependentMask : Nat → Nat

/-- Row access `d->accessRightList[index]` (bit index of the toggled right). -/
def rightAt (env : Env) (index : Nat) : Nat :=
  env.accessRightList.getD index 0

/-- Embedding of `AccessSubjectEditingContext::specialResourceGroupFor(d->resource)`:
the enclosing special group of the target resource, null (`0`) for a
group target (a null resource). -/
def outerGroupIdOf (env : Env) : Nat :=
  match env.target with
  | Target.resource r => env.world.outerGroupFor r
  | Target.group _ => 0

/-- Row info `d->info[index]`, kept in sync with the grant map by
`Private::updateInfo`. -/
def infoFor (env : Env) (accessMap : AccessMap) (index : Nat) : ResourceAccessInfo :=
  updateInfoAt env.world env.hasContext env.subject accessMap env.target
    (rightAt env index)

/-- Flag `allChildrenWereChecked`: the row has a positive child count and every
child is individually checked. -/
def allChildrenWereChecked (info : ResourceAccessInfo) : Bool :=
  decide (0 < info.totalChildCount)
    && decide (info.totalChildCount = info.checkedChildCount)

/-- Flag `outerGroupWasChecked`: the enclosing special group carries the toggled
right (`outerGroupAccessRights` is empty without an outer group). -/
def outerGroupWasChecked (env : Env) (accessMap : AccessMap) (index : Nat) : Bool :=
  testFlag
    (if outerGroupIdOf env ≠ 0 then mapValue accessMap (outerGroupIdOf env) else 0)
    (rightAt env index)

/-- Flag `itemWasChecked`: the target right is granted through the outer group
or directly on the target itself. -/
def itemWasChecked (env : Env) (accessMap : AccessMap) (index : Nat) : Bool :=
  outerGroupWasChecked env accessMap index
    || testFlag (mapValue accessMap (targetId env.target)) (rightAt env index)

/-- Flag `itemWillBeChecked = !(itemWasChecked || allChildrenWereChecked)`. -/
def itemWillBeChecked (env : Env) (accessMap : AccessMap) (index : Nat) : Bool :=
  !(itemWasChecked env accessMap index
      || allChildrenWereChecked (infoFor env accessMap index))

/-- Mask `toggledMask`: the toggled right, widened with its required rights when
turning on or its dependent rights when turning off, if requested. -/
def toggledMask (env : Env) (accessMap : AccessMap) (index : Nat)
    (withDependentAccessRights : Bool) : Nat :=
  let base := 2 ^ rightAt env index
  if withDependentAccessRights then
    base ||| (if itemWillBeChecked env accessMap index
              then env.requiredMask (rightAt env index)
              else env.dependentMask (rightAt env index))
  else base

/-- Embedding of `ResourceAccessRightsModel::toggle`: guards on a valid row
index, a live context and a non-null target id; then mutates the grant map
across the group-propagation, outer-group-expansion and item channels. -/
def toggle (env : Env) (accessMap : AccessMap) (index : Int)
    (withDependentAccessRights : Bool) : AccessMap :=
  if index ≥ (env.accessRightList.length : Int) ∨ index < 0 ∨ ¬env.hasContext then
    accessMap
  else
    let id := targetId env.target
    if id = 0 then accessMap
    else
      let i := index.toNat
      let isGroup := match env.target with
        | Target.group _ => true
        | Target.resource _ => false
      let outerGroupId := outerGroupIdOf env
      let itemAccessRights := mapValue accessMap id
      let wasOuter := outerGroupWasChecked env accessMap i
      let wasItem := itemWasChecked env accessMap i
      let willBe := itemWillBeChecked env accessMap i
      let mask := toggledMask env accessMap i withDependentAccessRights
      let accessMap :=
        if isGroup then
          let groupMask := if wasItem then mask &&& itemAccessRights else mask
          (env.world.groupContents id).foldl
            (fun m itemId => modifyAccessRights m itemId groupMask wasItem) accessMap
        else accessMap
      let accessMap :=
        if wasOuter then
          modifyAccessRights
            ((env.world.groupContents outerGroupId).foldl
              (fun m itemId => modifyAccessRights m itemId mask true) accessMap)
            outerGroupId mask false
        else accessMap
      modifyAccessRights accessMap id mask willBe

/-! Helper lemmas about the grant-map primitives. -/

theorem mapValue_setKey_self (m : AccessMap) (k v : Nat) :
    mapValue (setKey m k v) k = v := by
  induction m with
  | nil => simp [setKey, mapValue]
  | cons p rest ih =>
      by_cases h : p.1 = k
      · simp [setKey, h, mapValue]
      · simp [setKey, h, mapValue, ih]

theorem mapValue_setKey_ne (m : AccessMap) (k v q : Nat) (h : q ≠ k) :
    mapValue (setKey m k v) q = mapValue m q := by
  induction m with
  | nil => simp [setKey, mapValue, Ne.symm h]
  | cons p rest ih =>
      by_cases hp : p.1 = k
      · simp [setKey, hp, mapValue, Ne.symm h]
      · simp only [setKey, hp, if_false, mapValue, ih]

theorem mapValue_removeKey_self (m : AccessMap) (k : Nat) :
    mapValue (removeKey m k) k = 0 := by
  induction m with
  | nil => simp [removeKey, mapValue]
  | cons p rest ih =>
      by_cases h : p.1 = k
      · simpa [removeKey, h] using ih
      · simpa [removeKey, mapValue, h] using ih

theorem mapValue_removeKey_ne (m : AccessMap) (k q : Nat) (h : q ≠ k) :
    mapValue (removeKey m k) q = mapValue m q := by
  induction m with
  | nil => simp [removeKey]
  | cons p rest ih =>
      by_cases hp : p.1 = k
      · have hpq : p.1 ≠ q := fun hh => h (hh ▸ hp)
        simpa [removeKey, hp, mapValue, hpq, Ne.symm h] using ih
      · by_cases hq : p.1 = q
        · simp [removeKey, hp, mapValue, hq, h]
        · simpa [removeKey, hp, mapValue, hq, h] using ih

/-- Value of a grant map after one `modifyAccessRights` call. -/
theorem mapValue_modify (m : AccessMap) (id mask : Nat) (v : Bool) (k : Nat) :
    mapValue (modifyAccessRights m id mask v) k =
      if k = id then
        (if v then mapValue m id ||| mask else clearMask (mapValue m id) mask)
      else mapValue m k := by
  by_cases hk : k = id
  · subst hk
    rw [if_pos rfl]
    simp only [modifyAccessRights]
    split_ifs with h1 h2 <;>
      simp_all [mapValue_setKey_self, mapValue_removeKey_self]
  · rw [if_neg hk]
    simp only [modifyAccessRights]
    split_ifs with h1 h2 <;>
      simp_all [mapValue_setKey_ne _ _ _ _ hk, mapValue_removeKey_ne _ _ _ hk]

theorem lor_lor_self (a b : Nat) : a ||| b ||| b = a ||| b := by
  apply Nat.eq_of_testBit_eq
  intro i
  simp [Nat.testBit_lor, Bool.or_assoc]

theorem testBit_clearMask (a mask i : Nat) :
    (clearMask a mask).testBit i = (a.testBit i && !mask.testBit i) := by
  simp only [clearMask, Nat.testBit_xor, Nat.testBit_land]
  cases a.testBit i <;> cases mask.testBit i <;> rfl

theorem clearMask_clearMask_self (a b : Nat) :
    clearMask (clearMask a b) b = clearMask a b := by
  apply Nat.eq_of_testBit_eq
  intro i
  simp [testBit_clearMask, Bool.and_assoc]

/-- Value of a grant map after propagating one mask to a list of items. -/
theorem mapValue_foldl_modify (l : List Nat) (m : AccessMap) (mask : Nat) (v : Bool)
    (k : Nat) :
    mapValue (l.foldl (fun acc itemId => modifyAccessRights acc itemId mask v) m) k =
      if k ∈ l then
        (if v then mapValue m k ||| mask else clearMask (mapValue m k) mask)
      else mapValue m k := by
  induction l generalizing m with
  | nil => simp
  | cons i rest ih =>
      simp only [List.foldl_cons, ih, mapValue_modify, List.mem_cons]
      by_cases hki : k = i
      · subst hki
        by_cases hk : k ∈ rest
        · simp only [hk, if_true, if_pos rfl, true_or, if_pos (Or.inl rfl)]
          cases v <;> simp [lor_lor_self, clearMask_clearMask_self]
        · simp [hk]
      · by_cases hk : k ∈ rest
        · simp [hk, hki]
        · simp [hk, hki]

theorem testFlag_lor_pow (a right : Nat) : testFlag (a ||| 2 ^ right) right = true := by
  simp [testFlag, Nat.testBit_lor, Nat.testBit_two_pow_self]

theorem testFlag_clearMask_pow (a right : Nat) :
    testFlag (clearMask a (2 ^ right)) right = false := by
  simp [testFlag, testBit_clearMask, Nat.testBit_two_pow_self]

theorem testFlag_zero (right : Nat) : testFlag 0 right = false := by
  simp [testFlag, Nat.zero_testBit]

/-- A mask with the toggled right bit set is nonzero. -/
theorem ne_zero_of_testFlag {a right : Nat} (h : testFlag a right = true) : a ≠ 0 := by
  intro h0
  rw [h0, testFlag_zero] at h
  exact Bool.false_ne_true h

/-- The toggled mask always contains the toggled right's bit. -/
theorem testFlag_toggledMask (env : Env) (accessMap : AccessMap) (index : Nat)
    (withDependentAccessRights : Bool) :
    testFlag (toggledMask env accessMap index withDependentAccessRights)
      (rightAt env index) = true := by
  unfold toggledMask
  cases withDependentAccessRights with
  | false => simp [testFlag, Nat.testBit_two_pow_self]
  | true => simp [testFlag, Nat.testBit_lor, Nat.testBit_two_pow_self]

/-- The invariant that a grant map stores no zero-valued entry. -/
def NoZeroEntries (m : AccessMap) : Prop := ∀ p ∈ m, p.2 ≠ 0

theorem noZero_setKey {m : AccessMap} (h : NoZeroEntries m) {k v : Nat} (hv : v ≠ 0) :
    NoZeroEntries (setKey m k v) := by
  induction m with
  | nil =>
      intro p hp
      simp [setKey] at hp
      simp [hp, hv]
  | cons q rest ih =>
      intro p hp
      by_cases hq : q.1 = k
      · simp only [setKey, hq, if_pos rfl] at hp
        rcases List.mem_cons.mp hp with h1 | h2
        · simp [h1, hv]
        · exact h p (List.mem_cons_of_mem q h2)
      · simp only [setKey, hq, if_false] at hp
        rcases List.mem_cons.mp hp with h1 | h2
        · exact h1 ▸ h q (List.mem_cons_self q rest)
        · exact ih (fun x hx => h x (List.mem_cons_of_mem q hx)) p h2

theorem noZero_removeKey {m : AccessMap} (h : NoZeroEntries m) (k : Nat) :
    NoZeroEntries (removeKey m k) := by
  induction m with
  | nil => intro p hp; simp [removeKey] at hp
  | cons q rest ih =>
      intro p hp
      by_cases hq : q.1 = k
      · simp only [removeKey, hq, if_pos rfl] at hp
        exact ih (fun x hx => h x (List.mem_cons_of_mem q hx)) p hp
      · simp only [removeKey, hq, if_false] at hp
        rcases List.mem_cons.mp hp with h1 | h2
        · exact h1 ▸ h q (List.mem_cons_self q rest)
        · exact ih (fun x hx => h x (List.mem_cons_of_mem q hx)) p h2

theorem noZero_modify {m : AccessMap} (h : NoZeroEntries m) (id mask : Nat) (v : Bool) :
    NoZeroEntries (modifyAccessRights m id mask v) := by
  simp only [modifyAccessRights]
  split_ifs
  all_goals
    first
      | exact h
      | exact noZero_setKey h (by assumption)
      | exact noZero_removeKey h id

theorem noZero_foldl {m : AccessMap} (h : NoZeroEntries m) (l : List Nat)
    (mask : Nat) (v : Bool) :
    NoZeroEntries (l.foldl (fun acc itemId => modifyAccessRights acc itemId mask v) m) := by
  induction l generalizing m with
  | nil => exact h
  | cons i rest ih => exact ih (noZero_modify h i mask v)

/-- Counts of a `scanProviders` result come from its accumulator. -/
theorem scanProviders_counts (l : List Provider) (acc : ResourceAccessInfo) :
    (scanProviders l acc).totalChildCount = acc.totalChildCount
      ∧ (scanProviders l acc).checkedChildCount = acc.checkedChildCount := by
  induction l generalizing acc with
  | nil => exact ⟨rfl, rfl⟩
  | cons p rest ih =>
      simp only [scanProviders]
      split_ifs with h <;> simpa using ih _

/-- A resource-target row never carries child counts. -/
theorem updateInfoAt_resource_counts (w : World) (hasContext : Bool) (u : Nat)
    (accessMap : AccessMap) (r right : Nat) :
    (updateInfoAt w hasContext u accessMap (Target.resource r) right).totalChildCount = 0
      ∧ (updateInfoAt w hasContext u accessMap
          (Target.resource r) right).checkedChildCount = 0 := by
  simp only [updateInfoAt]
  split_ifs
  all_goals
    first
      | exact ⟨rfl, rfl⟩
      | exact ⟨by simpa using (scanProviders_counts _ _).1,
               by simpa using (scanProviders_counts _ _).2⟩

/-- For a resource target, `allChildrenWereChecked` is always false. -/
theorem allChildren_resource (env : Env) (accessMap : AccessMap) (index : Nat)
    (r : Nat) (htgt : env.target = Target.resource r) :
    allChildrenWereChecked (infoFor env accessMap index) = false := by
  unfold allChildrenWereChecked infoFor
  rw [htgt]
  simp [(updateInfoAt_resource_counts env.world env.hasContext env.subject accessMap r
    (rightAt env index)).1]
/-- A group target has no outer group, so `outerGroupWasChecked` is false. -/
theorem outerGroupWasChecked_group (env : Env) (accessMap : AccessMap) (index : Nat)
    (g : Nat) (htgt : env.target = Target.group g) :
    outerGroupWasChecked env accessMap index = false := by
  unfold outerGroupWasChecked outerGroupIdOf
  rw [htgt]
  simp [testFlag_zero]

/-- Shape of a `toggle` call on a resource target with a valid row. -/
theorem toggle_resource_eq (env : Env) (m : AccessMap) (i : Nat)
    (withDependentAccessRights : Bool) (r : Nat) (htgt : env.target = Target.resource r)
    (hr : r ≠ 0) (hctx : env.hasContext = true) (hi : i < env.accessRightList.length) :
    toggle env m (Int.ofNat i) withDependentAccessRights =
      modifyAccessRights
        (if outerGroupWasChecked env m i = true then
           modifyAccessRights
             ((env.world.groupContents (outerGroupIdOf env)).foldl
               (fun acc itemId => modifyAccessRights acc itemId
                 (toggledMask env m i withDependentAccessRights) true) m)
             (outerGroupIdOf env) (toggledMask env m i withDependentAccessRights) false
         else m)
        r (toggledMask env m i withDependentAccessRights)
        (itemWillBeChecked env m i) := by
  have h1 : ¬((Int.ofNat i) ≥ (env.accessRightList.length : Int)
      ∨ (Int.ofNat i) < 0 ∨ ¬env.hasContext = true) := by
    simp only [hctx, not_true_eq_false, or_false, Int.ofNat_eq_natCast]
    omega
  simp only [toggle, if_neg h1, htgt, targetId, if_neg hr, Int.ofNat_eq_natCast,
    Int.toNat_ofNat]
  simp
  intro hcon
  rcases hcon with hd | hd | hd
  · exact absurd hd (Nat.not_le.mpr hi)
  · omega
  · simp [hctx] at hd

/-- Shape of a `toggle` call on a group target with a valid row. -/
theorem toggle_group_eq (env : Env) (m : AccessMap) (i : Nat)
    (withDependentAccessRights : Bool) (g : Nat) (htgt : env.target = Target.group g)
    (hg : g ≠ 0) (hctx : env.hasContext = true) (hi : i < env.accessRightList.length) :
    toggle env m (Int.ofNat i) withDependentAccessRights =
      modifyAccessRights
        ((env.world.groupContents g).foldl
          (fun acc itemId => modifyAccessRights acc itemId
            (if itemWasChecked env m i = true
             then toggledMask env m i withDependentAccessRights &&& mapValue m g
             else toggledMask env m i withDependentAccessRights)
            (itemWasChecked env m i)) m)
        g (toggledMask env m i withDependentAccessRights)
        (itemWillBeChecked env m i) := by
  have h1 : ¬((Int.ofNat i) ≥ (env.accessRightList.length : Int)
      ∨ (Int.ofNat i) < 0 ∨ ¬env.hasContext = true) := by
    simp only [hctx, not_true_eq_false, or_false, Int.ofNat_eq_natCast]
    omega
  simp only [toggle, if_neg h1, htgt, targetId, if_neg hg, Int.ofNat_eq_natCast,
    Int.toNat_ofNat, outerGroupWasChecked_group env m i g htgt]
  simp
  intro hcon
  rcases hcon with hd | hd | hd
  · exact absurd hd (Nat.not_le.mpr hi)
  · omega
  · simp [hctx] at hd

/-! Claim theorems. -/

/-- C2 counterexample: two `ResourceAccessInfo` values that differ only in
`totalChildCount` compare equal under `operator==`, so the comparison is
not field-by-field over every field of the record. -/
theorem infoEq_ignores_totalChildCount :
    infoEq {} { totalChildCount := 1 } = true
      ∧ ({} : ResourceAccessInfo) ≠ { totalChildCount := 1 } := by
  decide

/-- C2 (amended): `ResourceAccessInfo::operator==` is structural
field-by-field comparison of `providedVia`, `providerUserGroups`,
`indirectProviders` and `checkedChildCount`; `totalChildCount` does not
participate. -/
theorem infoEq_iff (a b : ResourceAccessInfo) :
    infoEq a b = true ↔
      a.providedVia = b.providedVia
        ∧ a.providerUserGroups = b.providerUserGroups
        ∧ a.indirectProviders = b.indirectProviders
        ∧ a.checkedChildCount = b.checkedChildCount := by
  simp [infoEq, and_assoc]

/-- C3: `toggle` preserves the invariant that the grant map stores no
zero-valued entry — every mutation goes through `modifyAccessRights`,
which removes an entry whose bitmask becomes zero. -/
theorem toggle_preserves_noZeroEntries (env : Env) (accessMap : AccessMap)
    (index : Int) (withDependentAccessRights : Bool) (h : NoZeroEntries accessMap) :
    NoZeroEntries (toggle env accessMap index withDependentAccessRights) := by
  simp only [toggle]
  split_ifs
  all_goals
    first
      | exact h
      | exact noZero_modify h _ _ _
      | exact noZero_modify (noZero_foldl h _ _ _) _ _ _
      | exact noZero_modify (noZero_modify (noZero_foldl h _ _ _) _ _ _) _ _ _
      | exact noZero_modify
          (noZero_modify (noZero_foldl (noZero_foldl h _ _ _) _ _ _) _ _ _) _ _ _

/-- C4: a degenerate `toggle` call — row index out of range, missing
editing context, or a null target id — returns the grant map unchanged. -/
theorem toggle_degenerate_noop (env : Env) (accessMap : AccessMap) (index : Int)
    (withDependentAccessRights : Bool)
    (h : index ≥ (env.accessRightList.length : Int) ∨ index < 0
      ∨ env.hasContext = false ∨ targetId env.target = 0) :
    toggle env accessMap index withDependentAccessRights = accessMap := by
  simp only [toggle]
  rcases h with hc | hc | hc | hc
  · rw [if_pos (Or.inl hc)]
  · rw [if_pos (Or.inr (Or.inl hc))]
  · rw [if_pos (Or.inr (Or.inr (by simp [hc])))]
  · by_cases h1 : index ≥ (env.accessRightList.length : Int) ∨ index < 0
        ∨ ¬env.hasContext = true
    · rw [if_pos h1]
    · rw [if_neg h1, if_pos hc]

/-- Demonstration catalogue: special group `10` holds resources `1, 2, 3`. -/
def demoWorld : World :=
  { subjects := [], parentsOf := fun _ => [], fuel := 5, containers := [],
    groupContents := fun g => if g = 10 then [1, 2, 3] else [],
    outerGroupFor := fun r => if r ≤ 3 ∧ r ≠ 0 then 10 else 0,
    grants := fun _ => [] }

/-- Demonstration state: editing subject `7`, one access-right row (bit 0),
target resource `1`. -/
def demoEnvResource : Env :=
  { world := demoWorld, hasContext := true, subject := 7, accessRightList := [0],
    target := Target.resource 1, requiredMask := fun _ => 0,
    dependentMask := fun _ => 0 }

/-- Demonstration state targeting the special group `10`. -/
def demoEnvGroup : Env := { demoEnvResource with target := Target.group 10 }

/-- Demonstration state with no editing context. -/
def demoEnvNoContext : Env := { demoEnvResource with hasContext := false }

/-- C3 witness: the no-zero-entry invariant holds before and after a
concrete toggle (revoking resource 1 out of granted group 10). -/
theorem toggle_preserves_noZeroEntries_witness :
    NoZeroEntries [(10, 1)]
      ∧ NoZeroEntries (toggle demoEnvResource [(10, 1)] 0 false) :=
  ⟨by unfold NoZeroEntries; decide,
   toggle_preserves_noZeroEntries demoEnvResource [(10, 1)] 0 false
    (by unfold NoZeroEntries; decide)⟩

/-- C4 witness: with the context absent, a concrete toggle leaves the
grant map unchanged. -/
theorem toggle_degenerate_noop_witness :
    toggle demoEnvNoContext [(1, 5)] 0 false = [(1, 5)] :=
  toggle_degenerate_noop demoEnvNoContext [(1, 5)] 0 false (by decide)

/-- C10: toggling a collection target with zero members and no direct own
grant is never treated as currently checked — the all-children condition
needs a positive member count — so the toggle grants the collection's own
bit rather than revoking. -/
theorem toggle_emptyGroup_grants (env : Env) (accessMap : AccessMap) (i g : Nat)
    (withDependentAccessRights : Bool)
    (htgt : env.target = Target.group g) (hg : g ≠ 0) (hctx : env.hasContext = true)
    (hi : i < env.accessRightList.length)
    (hempty : env.world.groupContents g = [])
    (hbit : testFlag (mapValue accessMap g) (rightAt env i) = false) :
    itemWillBeChecked env accessMap i = true
      ∧ testFlag
          (mapValue (toggle env accessMap (Int.ofNat i) withDependentAccessRights) g)
          (rightAt env i) = true := by
  have hwas : itemWasChecked env accessMap i = false := by
    unfold itemWasChecked
    rw [outerGroupWasChecked_group env accessMap i g htgt, htgt]
    simpa [targetId] using hbit
  have hac : allChildrenWereChecked (infoFor env accessMap i) = false := by
    unfold allChildrenWereChecked infoFor updateInfoAt
    rw [htgt]
    by_cases h1 : env.hasContext = true ∧ env.subject ≠ 0 ∧ targetId (Target.group g) ≠ 0
    · rw [if_pos h1]
      by_cases h2 : hasOwnAccessRight accessMap g (rightAt env i) = true
      · simp [h2]
      · simp [h2, countGroupResources, hempty]
    · rw [if_neg h1]
      simp
  have hwill : itemWillBeChecked env accessMap i = true := by
    unfold itemWillBeChecked
    rw [hwas, hac]
    rfl
  refine ⟨hwill, ?_⟩
  rw [toggle_group_eq env accessMap i withDependentAccessRights g htgt hg hctx hi,
    hempty]
  simp only [List.foldl_nil]
  rw [mapValue_modify]
  simp only [if_pos rfl, hwill, if_pos rfl]
  have hmask := testFlag_toggledMask env accessMap i withDependentAccessRights
  simp only [testFlag, Nat.testBit_lor] at hmask ⊢
  simp [hmask]

/-- Demonstration state targeting an empty special group `11`. -/
def demoEnvEmptyGroup : Env := { demoEnvResource with target := Target.group 11 }

/-- C10 witness: toggling the empty group `11` from an empty grant map
computes a grant (turn on), setting the group's own bit. -/
theorem toggle_emptyGroup_grants_witness :
    itemWillBeChecked demoEnvEmptyGroup [] 0 = true
      ∧ testFlag (mapValue (toggle demoEnvEmptyGroup [] (Int.ofNat 0) false) 11)
          (rightAt demoEnvEmptyGroup 0) = true :=
  toggle_emptyGroup_grants demoEnvEmptyGroup [] 0 11 false (by decide) (by decide)
    (by decide) (by decide) (by decide) (by decide)

/-- Priority keys never exceed the layout priority. -/
theorem priorityKey_le_two (providedVia : ProvidedVia) : priorityKey providedVia ≤ 2 := by
  cases providedVia <;> decide

/-- Any non-layout channel has a strictly smaller priority key than layout. -/
theorem priorityKey_lt_two (providedVia : ProvidedVia)
    (h : providedVia ≠ ProvidedVia.layout) : priorityKey providedVia < 2 := by
  cases providedVia <;> first | exact absurd rfl h | decide

/-- A provider of layout kind has the layout channel. -/
theorem providerType_layout (p : Provider) (h : p.kind = ProviderKind.layoutKind) :
    providerType p = ProvidedVia.layout := by
  simp [providerType, h]

/-- Scanning a provider list that contains a layout (or starting from a
layout accumulator) reports the layout channel. -/
theorem scanProviders_providedVia_layout (l : List Provider) (acc : ResourceAccessInfo)
    (h : acc.providedVia = ProvidedVia.layout
      ∨ ∃ p ∈ l, p.kind = ProviderKind.layoutKind) :
    (scanProviders l acc).providedVia = ProvidedVia.layout := by
  induction l generalizing acc with
  | nil =>
      rcases h with h | h
      · exact h
      · simp at h
  | cons p rest ih =>
      simp only [scanProviders]
      rcases h with h | h
      · rw [if_neg (by rw [h]; exact Nat.not_lt.mpr (priorityKey_le_two _))]
        exact ih _ (Or.inl h)
      · obtain ⟨q, hqmem, hqkind⟩ := h
        rcases List.mem_cons.mp hqmem with hq | hq
        · subst hq
          by_cases hacc : acc.providedVia = ProvidedVia.layout
          · rw [if_neg (by rw [hacc]; exact Nat.not_lt.mpr (priorityKey_le_two _))]
            exact ih _ (Or.inl hacc)
          · rw [if_pos (by
              rw [providerType_layout q hqkind]
              exact priorityKey_lt_two _ hacc)]
            exact ih _ (Or.inl (providerType_layout q hqkind))
        · by_cases hcond :
              priorityKey (providerType p) > priorityKey acc.providedVia
          · rw [if_pos hcond]
            exact ih _ (Or.inr ⟨q, hq, hqkind⟩)
          · rw [if_neg hcond]
            exact ih _ (Or.inr ⟨q, hq, hqkind⟩)

/-- C1 (amended): when a resource's access is provided only by containers
and a layout-kind container qualifies (in particular when both a videowall
and a layout qualify), the reported channel is `layout` — the layout
channel outranks the videowall channel in the priority order. -/
theorem updateInfo_layout_outranks_videowall (w : World) (u : Nat)
    (accessMap : AccessMap) (r right : Nat) (hu : u ≠ 0) (hr : r ≠ 0)
    (hcontains : detailsContains (accessDetails w accessMap u r right) u = true)
    (hnotown : (detailsValue (accessDetails w accessMap u r right) u).any
        (fun p => p.id = r) = false)
    (hlay : ∃ p ∈ detailsValue (accessDetails w accessMap u r right) u,
        p.kind = ProviderKind.layoutKind)
    (_hvw : ∃ p ∈ detailsValue (accessDetails w accessMap u r right) u,
        p.kind = ProviderKind.videowallKind) :
    (updateInfoAt w true u accessMap (Target.resource r) right).providedVia
      = ProvidedVia.layout := by
  simp only [updateInfoAt]
  rw [if_pos ⟨by trivial, hu, by simpa [targetId] using hr⟩, if_pos hcontains,
    if_neg (by simp [hnotown])]
  exact scanProviders_providedVia_layout _ _ (Or.inr hlay)

/-- Demonstration videowall container `20` holding resource `1`. -/
def demoVideowall : Container :=
  { id := 20, kind := ProviderKind.videowallKind, members := [1] }

/-- Demonstration layout container `21` holding resource `1`. -/
def demoLayout : Container :=
  { id := 21, kind := ProviderKind.layoutKind, members := [1] }

/-- Demonstration catalogue where both containers hold resource `1`. -/
def demoWorldContainers : World :=
  { subjects := [], parentsOf := fun _ => [], fuel := 5,
    containers := [demoVideowall, demoLayout],
    groupContents := fun _ => [], outerGroupFor := fun _ => 0,
    grants := fun _ => [] }

/-- C1 counterexample: subject `7` is granted bit `0` on both the videowall
`20` and the layout `21`, each holding resource `1`; both containers
qualify as providers, yet the reported channel is `layout`, not the
videowall (dashboard-like) channel. -/
theorem updateInfo_both_containers_reports_layout :
    (⟨20, ProviderKind.videowallKind⟩ : Provider)
        ∈ (updateInfoAt demoWorldContainers true 7 [(20, 1), (21, 1)]
            (Target.resource 1) 0).indirectProviders
      ∧ (⟨21, ProviderKind.layoutKind⟩ : Provider)
        ∈ (updateInfoAt demoWorldContainers true 7 [(20, 1), (21, 1)]
            (Target.resource 1) 0).indirectProviders
      ∧ (updateInfoAt demoWorldContainers true 7 [(20, 1), (21, 1)]
            (Target.resource 1) 0).providedVia = ProvidedVia.layout
      ∧ ProvidedVia.layout ≠ ProvidedVia.videowall := by
  decide

/-- C1 witness for the amended claim, at the same concrete catalogue. -/
theorem updateInfo_layout_outranks_videowall_witness :
    (updateInfoAt demoWorldContainers true 7 [(20, 1), (21, 1)]
        (Target.resource 1) 0).providedVia = ProvidedVia.layout :=
  updateInfo_layout_outranks_videowall demoWorldContainers 7 [(20, 1), (21, 1)] 1 0
    (by decide) (by decide) (by decide) (by decide) (by decide) (by decide)

/-- Demonstration catalogue: special group `10` holds resources `1, 2`. -/
def demoWorldPair : World :=
  { subjects := [], parentsOf := fun _ => [], fuel := 5, containers := [],
    groupContents := fun g => if g = 10 then [1, 2] else [],
    outerGroupFor := fun r => if r ≤ 2 ∧ r ≠ 0 then 10 else 0,
    grants := fun _ => [] }

/-- Demonstration state targeting group `10` of `demoWorldPair`. -/
def demoEnvGroupPair : Env :=
  { world := demoWorldPair, hasContext := true, subject := 7,
    accessRightList := [0], target := Target.group 10,
    requiredMask := fun _ => 0, dependentMask := fun _ => 0 }

/-- C6 counterexample: group `10` has members `1, 2`, both individually
granted and the group itself not granted, so the toggle turns the
collection OFF (`itemWillBeChecked = false`); the claim then requires each
member's own bit to be explicitly set, but the code clears both members,
leaving an empty grant map. -/
theorem toggle_group_off_clears_members :
    itemWillBeChecked demoEnvGroupPair [(1, 1), (2, 1)] 0 = false
      ∧ toggle demoEnvGroupPair [(1, 1), (2, 1)] (Int.ofNat 0) false = []
      ∧ testFlag
          (mapValue (toggle demoEnvGroupPair [(1, 1), (2, 1)] (Int.ofNat 0) false) 1)
          (rightAt demoEnvGroupPair 0) = false := by
  decide

/-- C6 (amended): toggling a collection target propagates the mask to every
member with the boolean equal to the collection's prior directly-checked
state (`itemWasChecked`), narrowing the mask to the collection's own bits
when revoking: members are cleared when the collection turns ON, set when
a directly-granted collection turns OFF, and cleared when a collection that
counted as checked only through its children turns OFF. -/
theorem toggle_group_member_propagation (env : Env) (accessMap : AccessMap)
    (i g : Nat) (withDependentAccessRights : Bool)
    (htgt : env.target = Target.group g) (hg : g ≠ 0) (hctx : env.hasContext = true)
    (hi : i < env.accessRightList.length) :
    ∀ x ∈ env.world.groupContents g, x ≠ g →
      mapValue (toggle env accessMap (Int.ofNat i) withDependentAccessRights) x =
        (if itemWasChecked env accessMap i = true
         then mapValue accessMap x
            ||| (toggledMask env accessMap i withDependentAccessRights
                  &&& mapValue accessMap g)
         else clearMask (mapValue accessMap x)
            (toggledMask env accessMap i withDependentAccessRights)) := by
  intro x hx hxg
  rw [toggle_group_eq env accessMap i withDependentAccessRights g htgt hg hctx hi,
    mapValue_modify, if_neg hxg, mapValue_foldl_modify, if_pos hx]
  cases hw : itemWasChecked env accessMap i <;> simp [hw]

/-- C6 witness (amended claim): revoking right bit 0 on the directly
granted group `10` sets member `2` explicitly. -/
theorem toggle_group_member_propagation_witness :
    2 ∈ demoWorld.groupContents 10
      ∧ (2 : Nat) ≠ 10
      ∧ mapValue (toggle demoEnvGroup [(10, 1), (1, 1)] (Int.ofNat 0) false) 2 =
        (if itemWasChecked demoEnvGroup [(10, 1), (1, 1)] 0 = true
         then mapValue [(10, 1), (1, 1)] 2
            ||| (toggledMask demoEnvGroup [(10, 1), (1, 1)] 0 false
                  &&& mapValue [(10, 1), (1, 1)] 10)
         else clearMask (mapValue [(10, 1), (1, 1)] 2)
            (toggledMask demoEnvGroup [(10, 1), (1, 1)] 0 false)) :=
  ⟨by decide, by decide,
   toggle_group_member_propagation demoEnvGroup [(10, 1), (1, 1)] 0 10 false
     (by decide) (by decide) (by decide) (by decide) 2 (by decide) (by decide)⟩

/-- C5: revoking a right on a resource whose access comes from its granted
enclosing collection clears the collection's bit, explicitly grants the
mask to every other member, and leaves the toggled resource without the
bit. -/
theorem toggle_ownViaCollection_revoke (env : Env) (accessMap : AccessMap)
    (i r : Nat)
    (htgt : env.target = Target.resource r) (hr : r ≠ 0) (hctx : env.hasContext = true)
    (hi : i < env.accessRightList.length)
    (houter : outerGroupIdOf env ≠ 0)
    (houterr : outerGroupIdOf env ≠ r)
    (hgrant : testFlag (mapValue accessMap (outerGroupIdOf env))
        (rightAt env i) = true) :
    testFlag (mapValue (toggle env accessMap (Int.ofNat i) false) (outerGroupIdOf env))
        (rightAt env i) = false
      ∧ (∀ x ∈ env.world.groupContents (outerGroupIdOf env),
          x ≠ r → x ≠ outerGroupIdOf env →
            testFlag (mapValue (toggle env accessMap (Int.ofNat i) false) x)
              (rightAt env i) = true)
      ∧ testFlag (mapValue (toggle env accessMap (Int.ofNat i) false) r)
          (rightAt env i) = false := by
  have hwasOuter : outerGroupWasChecked env accessMap i = true := by
    unfold outerGroupWasChecked
    rw [if_pos houter]
    exact hgrant
  have hwill : itemWillBeChecked env accessMap i = false := by
    unfold itemWillBeChecked itemWasChecked
    rw [hwasOuter]
    simp
  have hmask : toggledMask env accessMap i false = 2 ^ rightAt env i := rfl
  rw [toggle_resource_eq env accessMap i false r htgt hr hctx hi, if_pos hwasOuter,
    hwill, hmask]
  refine ⟨?_, ?_, ?_⟩
  · rw [mapValue_modify, if_neg houterr, mapValue_modify, if_pos rfl]
    simp [testFlag_clearMask_pow]
  · intro x hx hxr hxo
    rw [mapValue_modify, if_neg hxr, mapValue_modify, if_neg hxo,
      mapValue_foldl_modify, if_pos hx]
    simp [testFlag_lor_pow]
  · rw [mapValue_modify, if_pos rfl]
    simp [testFlag_clearMask_pow]

/-- C5 witness (concrete scenario 2): group `10` = {1,2,3} granted bit 0 to
the subject; toggling member `1` off clears the group bit, grants members
`2` and `3` explicitly, leaves `1` without the bit, and the resulting map
is exactly [(2,1), (3,1)]. -/
theorem toggle_ownViaCollection_revoke_witness :
    testFlag (mapValue (toggle demoEnvResource [(10, 1)] (Int.ofNat 0) false)
        (outerGroupIdOf demoEnvResource)) (rightAt demoEnvResource 0) = false
      ∧ testFlag (mapValue (toggle demoEnvResource [(10, 1)] (Int.ofNat 0) false) 2)
          (rightAt demoEnvResource 0) = true
      ∧ testFlag (mapValue (toggle demoEnvResource [(10, 1)] (Int.ofNat 0) false) 3)
          (rightAt demoEnvResource 0) = true
      ∧ testFlag (mapValue (toggle demoEnvResource [(10, 1)] (Int.ofNat 0) false) 1)
          (rightAt demoEnvResource 0) = false
      ∧ toggle demoEnvResource [(10, 1)] (Int.ofNat 0) false = [(2, 1), (3, 1)] :=
  ⟨(toggle_ownViaCollection_revoke demoEnvResource [(10, 1)] 0 1 (by decide) (by decide)
      (by decide) (by decide) (by decide) (by decide) (by decide)).1,
   (toggle_ownViaCollection_revoke demoEnvResource [(10, 1)] 0 1 (by decide) (by decide)
      (by decide) (by decide) (by decide) (by decide) (by decide)).2.1 2
     (by decide) (by decide) (by decide),
   (toggle_ownViaCollection_revoke demoEnvResource [(10, 1)] 0 1 (by decide) (by decide)
      (by decide) (by decide) (by decide) (by decide) (by decide)).2.1 3
     (by decide) (by decide) (by decide),
   (toggle_ownViaCollection_revoke demoEnvResource [(10, 1)] 0 1 (by decide) (by decide)
      (by decide) (by decide) (by decide) (by decide) (by decide)).2.2,
   by decide⟩

/-- C7: when provenance is via parent groups, the reported list holds
exactly the subject's direct parents that are granting subjects themselves
or whose ancestor chain reaches a granting subject, and the list is
sorted. -/
theorem updateInfo_parentGroups (w : World) (u : Nat) (accessMap : AccessMap)
    (r right : Nat) (hu : u ≠ 0) (hr : r ≠ 0)
    (hnotself : detailsContains (accessDetails w accessMap u r right) u = false)
    (hne : accessDetails w accessMap u r right ≠ []) :
    (updateInfoAt w true u accessMap (Target.resource r) right).providedVia
        = ProvidedVia.parentUserGroup
      ∧ (∀ p, p ∈ (updateInfoAt w true u accessMap
            (Target.resource r) right).providerUserGroups
          ↔ p ∈ w.parentsOf u
            ∧ ((detailsKeys (accessDetails w accessMap u r right)).contains p = true
               ∨ isRecursiveMember w p
                   (detailsKeys (accessDetails w accessMap u r right)) = true))
      ∧ List.Sorted (fun a b => a ≤ b)
          (updateInfoAt w true u accessMap
            (Target.resource r) right).providerUserGroups := by
  have hred : updateInfoAt w true u accessMap (Target.resource r) right =
      { providedVia := ProvidedVia.parentUserGroup,
        providerUserGroups :=
          parentProviderGroups w u (detailsKeys (accessDetails w accessMap u r right)) } := by
    simp only [updateInfoAt]
    rw [if_pos ⟨by trivial, hu, by simpa [targetId] using hr⟩,
      if_neg (by simp [hnotself]), if_pos hne]
  rw [hred]
  refine ⟨rfl, ?_, ?_⟩
  · intro p
    simp only [parentProviderGroups]
    rw [List.Perm.mem_iff (List.perm_insertionSort _ _)]
    simp [List.mem_filter]
  · exact List.sorted_insertionSort _ _

/-- Demonstration hierarchy: user `1` has direct parent `2`, which has
direct parent `3`; only `3` holds the grant on resource `5`. -/
def demoWorldHierarchy : World :=
  { subjects := [2, 3],
    parentsOf := fun s => if s = 1 then [2] else if s = 2 then [3] else [],
    fuel := 5, containers := [], groupContents := fun _ => [],
    outerGroupFor := fun _ => 0,
    grants := fun s => if s = 3 then [(5, 1)] else [] }

/-- C7 witness: only grandparent `3` holds the grant; the reported list
contains the direct parent `2` and not `3`, and is sorted. -/
theorem updateInfo_parentGroups_witness :
    (updateInfoAt demoWorldHierarchy true 1 [] (Target.resource 5) 0).providedVia
        = ProvidedVia.parentUserGroup
      ∧ 2 ∈ (updateInfoAt demoWorldHierarchy true 1 []
          (Target.resource 5) 0).providerUserGroups
      ∧ 3 ∉ (updateInfoAt demoWorldHierarchy true 1 []
          (Target.resource 5) 0).providerUserGroups
      ∧ List.Sorted (fun a b => a ≤ b)
          (updateInfoAt demoWorldHierarchy true 1 []
            (Target.resource 5) 0).providerUserGroups := by
  have T := updateInfo_parentGroups demoWorldHierarchy 1 [] 5 0 (by decide) (by decide)
    (by decide) (by decide)
  exact ⟨T.1, (T.2.1 2).mpr ⟨by decide, Or.inr (by decide)⟩,
    fun h => absurd ((T.2.1 3).mp h).1 (by decide), T.2.2⟩

/-- Specification-side definition (per the spec's decision logic):
currently checked = directly granted, or a resource inside an own-granted
collection, or a collection with at least one member all of whose members
are individually checked. -/
def currentlyCheckedSpec (env : Env) (accessMap : AccessMap) (i : Nat) : Prop :=
  testFlag (mapValue accessMap (targetId env.target)) (rightAt env i) = true
    ∨ (match env.target with
       | Target.resource r =>
           env.world.outerGroupFor r ≠ 0
             ∧ testFlag (mapValue accessMap (env.world.outerGroupFor r))
                 (rightAt env i) = true
       | Target.group _ => False)
    ∨ (match env.target with
       | Target.group g =>
           env.world.groupContents g ≠ []
             ∧ ∀ x ∈ env.world.groupContents g,
                 testFlag (mapValue accessMap x) (rightAt env i) = true
       | Target.resource _ => False)

/-- C8: the toggle engine's checked-state computation agrees with the
spec's three-way disjunction, and the new state is its negation. -/
theorem toggle_currentlyChecked (env : Env) (accessMap : AccessMap) (i : Nat)
    (hctx : env.hasContext = true) (hu : env.subject ≠ 0)
    (hid : targetId env.target ≠ 0) :
    ((itemWasChecked env accessMap i
        || allChildrenWereChecked (infoFor env accessMap i)) = true
      ↔ currentlyCheckedSpec env accessMap i)
    ∧ itemWillBeChecked env accessMap i
        = !(itemWasChecked env accessMap i
            || allChildrenWereChecked (infoFor env accessMap i)) := by
  refine ⟨?_, rfl⟩
  rcases htgt : env.target with r | g
  · -- resource target
    have hac := allChildren_resource env accessMap i r htgt
    rw [hac]
    unfold itemWasChecked outerGroupWasChecked outerGroupIdOf currentlyCheckedSpec
    rw [htgt]
    simp only [targetId, Bool.or_false]
    by_cases houter : env.world.outerGroupFor r = 0
    · simp [houter, testFlag_zero]
    · simp only [houter, ne_eq, not_false_eq_true, if_true, Bool.or_eq_true]
      constructor
      · rintro (h | h)
        · exact Or.inr (Or.inl ⟨by trivial, h⟩)
        · exact Or.inl h
      · rintro (h | ⟨_, h⟩ | h)
        · exact Or.inr h
        · exact Or.inl h
        · exact h.elim
  · -- group target
    have hg : g ≠ 0 := by
      rw [htgt] at hid
      simpa [targetId] using hid
    have hwo := outerGroupWasChecked_group env accessMap i g htgt
    unfold itemWasChecked
    rw [hwo]
    unfold currentlyCheckedSpec
    rw [htgt]
    simp only [targetId, Bool.false_or]
    by_cases hown : testFlag (mapValue accessMap g) (rightAt env i) = true
    · have hacv : (allChildrenWereChecked (infoFor env accessMap i)) = false ∨
          (allChildrenWereChecked (infoFor env accessMap i)) = true := by
        cases allChildrenWereChecked (infoFor env accessMap i) <;> simp
      simp [hown]
    · have hf : testFlag (mapValue accessMap g) (rightAt env i) = false := by
        cases hflag : testFlag (mapValue accessMap g) (rightAt env i)
        · rfl
        · exact absurd hflag hown
      have hinfo : infoFor env accessMap i =
          { checkedChildCount :=
              (countGroupResources env.world accessMap g (rightAt env i)).1,
            totalChildCount :=
              (countGroupResources env.world accessMap g (rightAt env i)).2 } := by
        unfold infoFor updateInfoAt
        rw [htgt]
        simp only [if_pos (show env.hasContext = true ∧ env.subject ≠ 0
            ∧ targetId (Target.group g) ≠ 0 from ⟨hctx, hu, by simpa [targetId] using hg⟩)]
        rw [if_neg (by simp [hasOwnAccessRight, hf])]
      rw [hf, hinfo]
      simp only [Bool.false_or]
      unfold allChildrenWereChecked countGroupResources
      simp only [Bool.and_eq_true, decide_eq_true_eq]
      constructor
      · rintro ⟨h1, h2⟩
        refine Or.inr (Or.inr ⟨?_, ?_⟩)
        · exact List.length_pos.mp h1
        · exact List.countP_eq_length.mp h2.symm
      · rintro (h | h | ⟨h1, h2⟩)
        · exact absurd h (by simp [hf])
        · exact h.elim
        · exact ⟨List.length_pos.mpr h1, (List.countP_eq_length.mpr h2).symm⟩

/-- C8 witness: group `10` with members `1, 2, 3` all individually granted
bit 0 and no direct group grant — the checked computation and its
negation-based new state, instantiated concretely. -/
theorem toggle_currentlyChecked_witness :
    ((itemWasChecked demoEnvGroup [(1, 1), (2, 1), (3, 1)] 0
        || allChildrenWereChecked (infoFor demoEnvGroup [(1, 1), (2, 1), (3, 1)] 0))
        = true
      ↔ currentlyCheckedSpec demoEnvGroup [(1, 1), (2, 1), (3, 1)] 0)
    ∧ itemWillBeChecked demoEnvGroup [(1, 1), (2, 1), (3, 1)] 0
        = !(itemWasChecked demoEnvGroup [(1, 1), (2, 1), (3, 1)] 0
            || allChildrenWereChecked (infoFor demoEnvGroup [(1, 1), (2, 1), (3, 1)] 0)) :=
  toggle_currentlyChecked demoEnvGroup [(1, 1), (2, 1), (3, 1)] 0 (by decide) (by decide)
    (by decide)

/-! Supporting lemmas for the toggle round-trip analysis. -/

theorem lor_pow_ne_self {a right : Nat} (h : testFlag a right = false) :
    a ||| 2 ^ right ≠ a := by
  intro he
  have hb : Nat.testBit (a ||| 2 ^ right) right = Nat.testBit a right := by rw [he]
  simp only [testFlag] at h
  simp [Nat.testBit_lor, Nat.testBit_two_pow_self, h] at hb

theorem lor_pow_ne_zero (a right : Nat) : a ||| 2 ^ right ≠ 0 := by
  intro he
  have hb : Nat.testBit (a ||| 2 ^ right) right = Nat.testBit 0 right := by rw [he]
  simp [Nat.testBit_lor, Nat.testBit_two_pow_self, Nat.zero_testBit] at hb

theorem clearMask_lor_pow {a right : Nat} (h : testFlag a right = false) :
    clearMask (a ||| 2 ^ right) (2 ^ right) = a := by
  apply Nat.eq_of_testBit_eq
  intro i
  rw [testBit_clearMask, Nat.testBit_lor]
  by_cases hi : i = right
  · subst hi
    simp only [testFlag] at h
    simp [Nat.testBit_two_pow_self, h]
  · simp [Nat.testBit_two_pow_of_ne (fun hh => hi hh.symm)]

theorem setKey_setKey (m : AccessMap) (k v v2 : Nat) :
    setKey (setKey m k v) k v2 = setKey m k v2 := by
  induction m with
  | nil => simp [setKey]
  | cons p rest ih =>
      by_cases hp : p.1 = k
      · simp [setKey, hp]
      · simp [setKey, hp, ih]

theorem setKey_mapValue_self (m : AccessMap) (k : Nat) (h : hasKey m k = true) :
    setKey m k (mapValue m k) = m := by
  induction m with
  | nil => simp [hasKey] at h
  | cons p rest ih =>
      by_cases hp : p.1 = k
      · simp only [setKey, mapValue, if_pos hp]
        rw [← hp]
      · have hrest : hasKey rest k = true := by
          simpa [hasKey, hp] using h
        simp [setKey, mapValue, hp, ih hrest]

theorem setKey_of_hasKey_false (m : AccessMap) (k v : Nat) (h : hasKey m k = false) :
    setKey m k v = m ++ [(k, v)] := by
  induction m with
  | nil => simp [setKey]
  | cons p rest ih =>
      have hp : p.1 ≠ k := by
        intro hh
        simp [hasKey, hh] at h
      have hrest : hasKey rest k = false := by
        simpa [hasKey, hp] using h
      simp [setKey, hp, ih hrest]

theorem removeKey_append_single (m : AccessMap) (k v : Nat) (h : hasKey m k = false) :
    removeKey (m ++ [(k, v)]) k = m := by
  induction m with
  | nil => simp [removeKey]
  | cons p rest ih =>
      have hp : p.1 ≠ k := by
        intro hh
        simp [hasKey, hh] at h
      have hrest : hasKey rest k = false := by
        simpa [hasKey, hp] using h
      simp [removeKey, hp, ih hrest]

theorem hasKey_false_of_mapValue_zero :
    ∀ (m : AccessMap), NoZeroEntries m → ∀ k, mapValue m k = 0 → hasKey m k = false
  | [], _, k, _ => by simp [hasKey]
  | p :: rest, hnz, k, h => by
      by_cases hp : p.1 = k
      · exact absurd (by simpa [mapValue, hp] using h)
          (hnz p (List.mem_cons_self p rest))
      · simpa [hasKey, hp] using
          hasKey_false_of_mapValue_zero rest
            (fun x hx => hnz x (List.mem_cons_of_mem p hx)) k
            (by simpa [mapValue, hp] using h)

theorem hasKey_true_of_mapValue_ne_zero :
    ∀ (m : AccessMap) (k : Nat), mapValue m k ≠ 0 → hasKey m k = true
  | [], k, h => absurd rfl h
  | p :: rest, k, h => by
      by_cases hp : p.1 = k
      · simp [hasKey, hp]
      · simpa [hasKey, hp] using
          hasKey_true_of_mapValue_ne_zero rest k (by simpa [mapValue, hp] using h)

/-- Turning a resource right on (not granted directly nor via the outer
group) appends or updates exactly the target's entry. -/
theorem toggle_resource_on (env : Env) (m : AccessMap) (i r : Nat)
    (htgt : env.target = Target.resource r) (hr : r ≠ 0)
    (hctx : env.hasContext = true) (hi : i < env.accessRightList.length)
    (hflag : testFlag (mapValue m r) (rightAt env i) = false)
    (houterflag : outerGroupWasChecked env m i = false) :
    toggle env m (Int.ofNat i) false =
      setKey m r (mapValue m r ||| 2 ^ rightAt env i) := by
  have hwill : itemWillBeChecked env m i = true := by
    unfold itemWillBeChecked itemWasChecked
    rw [houterflag, allChildren_resource env m i r htgt, htgt]
    simp [targetId, hflag]
  have hmask : toggledMask env m i false = 2 ^ rightAt env i := rfl
  rw [toggle_resource_eq env m i false r htgt hr hctx hi,
    if_neg (by simp [houterflag]), hwill, hmask]
  simp only [modifyAccessRights]
  simp only [if_true]
  rw [if_neg (lor_pow_ne_self hflag),
    if_pos (by simpa using lor_pow_ne_zero (mapValue m r) (rightAt env i))]

/-- A resource row resolves to the `own` channel whenever the subject's own
map carries the right on the resource and the enclosing special group does
not carry it. -/
theorem updateInfo_own_of_ownFlag (w : World) (u : Nat) (m2 : AccessMap)
    (r right : Nat) (hu : u ≠ 0) (hr : r ≠ 0)
    (hflag : testFlag (mapValue m2 r) right = true)
    (houter : ¬(w.outerGroupFor r ≠ 0
        ∧ testFlag (mapValue m2 (w.outerGroupFor r)) right = true)) :
    (updateInfoAt w true u m2 (Target.resource r) right).providedVia
      = ProvidedVia.own := by
  have hprov : providersFor w m2 r right =
      (⟨r, ProviderKind.plainKind⟩ : Provider) ::
        (w.containers.filter
          (fun c => c.members.contains r ∧ testFlag (mapValue m2 c.id) right)).map
          (fun c => (⟨c.id, c.kind⟩ : Provider)) := by
    unfold providersFor
    rw [if_pos (Or.inl hflag)]
    rfl
  have hdet : accessDetails w m2 u r right =
      (u, providersFor w m2 r right) ::
        ((w.subjects.filter (fun s => s ≠ u ∧ isRecursiveMember w u [s])).map
          (fun s => (s, providersFor w (w.grants s) r right))).filter
          (fun e => e.2 ≠ []) := by
    unfold accessDetails
    rw [List.filter_cons]
    simp [hprov]
  simp only [updateInfoAt]
  rw [if_pos ⟨by trivial, hu, by simpa [targetId] using hr⟩]
  rw [if_pos (by simp [detailsContains, hdet] : detailsContains
      (accessDetails w m2 u r right) u = true)]
  rw [if_pos (by simp [detailsValue, hdet, hprov] : (detailsValue
      (accessDetails w m2 u r right) u).any (fun p => p.id = r) = true)]
  simp [houter]

/-- C9 (amended): for a resource target with `includeDependents=false`,
toggling a right ON and resolving reports the `own` channel, and toggling
a second time restores the grant map exactly — hence every resolve result
is restored; for collection targets the restoration fails in general. -/
theorem toggle_resource_roundtrip (env : Env) (m : AccessMap) (i r : Nat)
    (htgt : env.target = Target.resource r) (hr : r ≠ 0)
    (hctx : env.hasContext = true) (hu : env.subject ≠ 0)
    (hi : i < env.accessRightList.length)
    (hnz : NoZeroEntries m)
    (hflag : testFlag (mapValue m r) (rightAt env i) = false)
    (houter : outerGroupIdOf env = 0
      ∨ testFlag (mapValue m (outerGroupIdOf env)) (rightAt env i) = false)
    (houterr : outerGroupIdOf env ≠ r) :
    (infoFor env (toggle env m (Int.ofNat i) false) i).providedVia = ProvidedVia.own
      ∧ toggle env (toggle env m (Int.ofNat i) false) (Int.ofNat i) false = m := by
  have houterflag : outerGroupWasChecked env m i = false := by
    unfold outerGroupWasChecked
    rcases houter with h0 | h0
    · rw [h0]
      simp [testFlag_zero]
    · by_cases hx : outerGroupIdOf env ≠ 0
      · rw [if_pos hx]
        exact h0
      · rw [if_neg hx]
        exact testFlag_zero _
  have hm1 : toggle env m (Int.ofNat i) false =
      setKey m r (mapValue m r ||| 2 ^ rightAt env i) :=
    toggle_resource_on env m i r htgt hr hctx hi hflag houterflag
  have houtid : outerGroupIdOf env = env.world.outerGroupFor r := by
    unfold outerGroupIdOf
    rw [htgt]
  constructor
  · rw [hm1]
    unfold infoFor
    rw [htgt, hctx]
    apply updateInfo_own_of_ownFlag env.world env.subject _ r (rightAt env i) hu hr
    · rw [mapValue_setKey_self]
      exact testFlag_lor_pow _ _
    · rintro ⟨hne0, hfl⟩
      rw [← houtid] at hne0 hfl
      rw [mapValue_setKey_ne _ _ _ _ houterr] at hfl
      rcases houter with h0 | h0
      · exact hne0 h0
      · rw [h0] at hfl
        exact Bool.false_ne_true hfl
  · rw [hm1]
    have houterflag2 :
        outerGroupWasChecked env (setKey m r (mapValue m r ||| 2 ^ rightAt env i)) i
          = false := by
      unfold outerGroupWasChecked
      by_cases hx : outerGroupIdOf env ≠ 0
      · rw [if_pos hx, mapValue_setKey_ne _ _ _ _ houterr]
        rcases houter with h0 | h0
        · exact absurd h0 hx
        · exact h0
      · rw [if_neg hx]
        exact testFlag_zero _
    have hwill2 :
        itemWillBeChecked env (setKey m r (mapValue m r ||| 2 ^ rightAt env i)) i
          = false := by
      unfold itemWillBeChecked itemWasChecked
      rw [houterflag2, htgt]
      simp [targetId, mapValue_setKey_self, testFlag_lor_pow]
    rw [toggle_resource_eq env _ i false r htgt hr hctx hi,
      if_neg (by simp [houterflag2]), hwill2]
    have hmask :
        toggledMask env (setKey m r (mapValue m r ||| 2 ^ rightAt env i)) i false
          = 2 ^ rightAt env i := rfl
    rw [hmask]
    simp only [modifyAccessRights, Bool.false_eq_true, if_false]
    rw [mapValue_setKey_self, clearMask_lor_pow hflag]
    rw [if_neg (fun he => lor_pow_ne_self hflag he.symm)]
    by_cases hv : mapValue m r ≠ 0
    · rw [if_pos hv, setKey_setKey,
        setKey_mapValue_self m r (hasKey_true_of_mapValue_ne_zero m r hv)]
    · rw [if_neg hv]
      have hv0 : mapValue m r = 0 := by
        by_cases hz : mapValue m r = 0
        · exact hz
        · exact absurd hz hv
      have hk := hasKey_false_of_mapValue_zero m hnz r hv0
      rw [setKey_of_hasKey_false m r _ hk]
      exact removeKey_append_single m r _ hk

/-- C9 counterexample: toggling the partially-checked collection `10`
(members 1, 2, 3; only 1 granted) ON and then OFF rewrites the member own
bits, so resolving the collection afterwards reports 3 checked children
instead of 1 — the pre-toggle resolve result is not restored. -/
theorem toggle_group_roundtrip_not_restored :
    itemWillBeChecked demoEnvGroup [(1, 1)] 0 = true
      ∧ (infoFor demoEnvGroup (toggle demoEnvGroup [(1, 1)] (Int.ofNat 0) false)
          0).providedVia = ProvidedVia.own
      ∧ toggle demoEnvGroup (toggle demoEnvGroup [(1, 1)] (Int.ofNat 0) false)
          (Int.ofNat 0) false = [(1, 1), (2, 1), (3, 1)]
      ∧ infoEq
          (infoFor demoEnvGroup
            (toggle demoEnvGroup (toggle demoEnvGroup [(1, 1)] (Int.ofNat 0) false)
              (Int.ofNat 0) false) 0)
          (infoFor demoEnvGroup [(1, 1)] 0) = false
      ∧ infoFor demoEnvGroup
          (toggle demoEnvGroup (toggle demoEnvGroup [(1, 1)] (Int.ofNat 0) false)
            (Int.ofNat 0) false) 0
        ≠ infoFor demoEnvGroup [(1, 1)] 0 := by
  decide

/-- C9 witness (amended claim): granting resource `1` from an empty map and
revoking it again restores the empty map, and the intermediate resolve
reports the `own` channel. -/
theorem toggle_resource_roundtrip_witness :
    (infoFor demoEnvResource (toggle demoEnvResource [] (Int.ofNat 0) false)
        0).providedVia = ProvidedVia.own
      ∧ toggle demoEnvResource (toggle demoEnvResource [] (Int.ofNat 0) false)
          (Int.ofNat 0) false = [] :=
  toggle_resource_roundtrip demoEnvResource [] 0 1 (by decide) (by decide) (by decide)
    (by decide) (by decide) (by unfold NoZeroEntries; decide) (by decide) (by decide)
    (by decide)
